import Mathlib

/-!
Verification development for the `zotero-fetch` command-line tool
(`src/main.go`).  The program is a thin read-only layer over a Zotero
SQLite database: it lists bibliographic items (with optional title/tag
filters), resolves attachment file paths under a storage root, opens an
attachment via the OS `open` command, and prints reference lines.

The Go code is shallowly embedded here:
  * pure string manipulation (`strings.Split`, `strings.SplitN`,
    `strings.TrimPrefix`, `filepath.Join`, `truncateString`) becomes pure
    Lean functions over `String`/`List Char`;
  * the single SQL query (`baseQuery` plus the filter conditions and
    `GROUP BY`) is given a relational semantics over explicit table rows,
    with SQLite's `LIKE`, `GROUP_CONCAT(DISTINCT _)` and scalar-subquery
    behaviour spelled out;
  * the fallible driver/OS layer (`database/sql`, `exec.Command`) is
    modelled by an oracle record `DriverEnv`; repository and CLI
    operations return `Except String _` mirroring Go's `(T, error)`
    returns (a Go function that returns `(nil, err)` returns `.error e`
    here, so an error carries no partial result by construction);
  * terminal output becomes a list of structured `OutLine` values, and
    `main` becomes a total function from parsed flags/arguments and the
    oracle to an `Outcome` (normal output or `log.Fatal`-style fatal
    message).
-/

/-- ASCII case folding: SQLite's `LIKE` folds only the 26 ASCII letters
(`sqlite3UpperToLower`); other characters compare verbatim. -/
def foldC (c : Char) : Char :=
  if 'A' ≤ c ∧ c ≤ 'Z' then Char.ofNat (c.toNat + 32) else c

/-- All suffixes of a list, longest first (the list itself down to `[]`). -/
def tailsOf : List Char → List (List Char)
  | [] => [[]]
  | c :: cs => (c :: cs) :: tailsOf cs

/-- `leadsIn small big` is true when `small` is an initial run of `big`. -/
def leadsIn : List Char → List Char → Bool
  | [], _ => true
  | _ :: _, [] => false
  | a :: as, b :: bs => a == b && leadsIn as bs

/-- `occursIn small big`: `small` appears contiguously inside `big`. -/
def occursIn (small big : List Char) : Bool :=
  (tailsOf big).any (fun s => leadsIn small s)

/-- SQLite `LIKE` pattern matching over characters: `%` matches any
(possibly empty) sequence, `_` matches exactly one character, every other
character matches itself up to ASCII case folding.  Recursion is
structural on the pattern; the `%` case tries every suffix of the text. -/
def likeM : List Char → List Char → Bool
  | [], t => t.isEmpty
  | c :: ps, t =>
    if c = '%' then (tailsOf t).any (fun s => likeM ps s)
    else
      match t with
      | [] => false
      | x :: ts => if c = '_' then likeM ps ts else foldC c == foldC x && likeM ps ts

/-- `value LIKE pattern` on strings (no ESCAPE clause, as in the program). -/
def sqlLike (pattern value : String) : Bool :=
  likeM pattern.toList value.toList

/-- The spec's filter reading: `needle` is a case-insensitive substring of
`hay`.  This is the predicate the spec sentence describes; it is compared
against the `LIKE` semantics the code actually gets from SQLite. -/
def specCISubstr (needle hay : String) : Bool :=
  occursIn (needle.toList.map foldC) (hay.toList.map foldC)

/-- Split a character list at every occurrence of `sep` (the separator is
dropped); mirrors Go `strings.Split` for a one-character separator, so the
result is never empty and empty fields are kept. -/
def splitListOn (sep : Char) : List Char → List (List Char)
  | [] => [[]]
  | c :: cs =>
    if c = sep then [] :: splitListOn sep cs
    else
      match splitListOn sep cs with
      | [] => [[c]]
      | h :: t => (c :: h) :: t

/-- Go `strings.Split(s, sep)` for a one-character separator. -/
def goSplit (s : String) (sep : Char) : List String :=
  (splitListOn sep s.toList).map String.mk

/-- Go `strings.SplitN(s, sep, 2)` for a one-character separator: split at
the first occurrence only; a list of length 1 means `sep` does not occur. -/
def splitN2 (s : String) (sep : Char) : List String :=
  let cs := s.toList
  if cs.any (· == sep) then
    [String.mk (cs.takeWhile (· ≠ sep)), String.mk ((cs.dropWhile (· ≠ sep)).tail)]
  else [s]

/-- Go `strings.TrimPrefix(s, pre)`: drop `pre` from the front of `s` when
it is present, otherwise return `s` unchanged. -/
def goTrimPre (s pre : String) : String :=
  if leadsIn pre.toList s.toList then String.mk (s.toList.drop pre.toList.length) else s

/-- `truncateString` from `src/main.go`: keep `s` when it has at most `n`
runes, otherwise keep the first `n-3` runes and append `"..."`.  Lean
`Char` lists play the role of Go rune slices. -/
def truncateString (s : String) (n : Nat) : String :=
  if s.toList.length ≤ n then s
  else String.mk (s.toList.take (n - 3)) ++ "..."

/-- Join a list of strings with a separator (Go `strings.Join`). -/
def joinSep (sep : String) : List String → String
  | [] => ""
  | [x] => x
  | x :: xs => x ++ sep ++ joinSep sep xs

/-- Lexical path cleaning, Go `path/filepath.Clean` on Unix: collapse
duplicate separators, drop `.` components, resolve `..` against earlier
components (never past the root; leading `..` survive in relative paths),
`"."` for an empty relative result, `"/"` for an empty rooted result. -/
def cleanPath (p : String) : String :=
  if p = "" then "."
  else
    let cs := p.toList
    let rooted := cs.head? == some '/'
    let comps := ((splitListOn '/' cs).map String.mk).filter
      (fun c => c ≠ "" && c ≠ ".")
    let outComps := comps.foldl
      (fun acc c =>
        if c = ".." then
          if acc ≠ [] && acc.getLast? ≠ some ".." then acc.dropLast
          else if rooted then acc else acc ++ [".."]
        else acc ++ [c]) []
    let body := joinSep "/" outComps
    if rooted then "/" ++ body
    else if body = "" then "." else body

/-- Go `path/filepath.Join`: skip to the first non-empty element, join the
rest with `/`, and clean; all-empty input yields the empty string. -/
def filepathJoin (elems : List String) : String :=
  match elems.dropWhile (· = "") with
  | [] => ""
  | rest => cleanPath (joinSep "/" rest)

/-- `Config` from `src/main.go`. -/
structure Config where
  DBPath : String
  StoragePath : String
  Version : String
deriving Repr, DecidableEq

/-- `Item` from `src/main.go`; `sql.NullString` becomes `Option String`
(`none` for an invalid/NULL value). -/
structure Item where
  StableID : String
  Title : String
  Tags : Option String
  Attachments : Option String
deriving Repr, DecidableEq

/-- One line of terminal output: `idOnly` for the non-verbose
`fmt.Println(item.StableID)`, `row` for the verbose four-column
`fmt.Printf` (stable id, truncated title, truncated tags, storage path —
the column-padding of the format string is presentation only), `refLine`
for the single line printed by `Reference`. -/
inductive OutLine where
  | idOnly (stableID : String)
  | row (stableID title tags storagePath : String)
  | refLine (text : String)
deriving Repr, DecidableEq

/-- `CLI.getStoragePath` from `src/main.go`: empty string when the
attachments field is NULL or empty; otherwise split on commas, take the
first entry, split it at the first colon, and join storage root, key and
the `storage:`-stripped relative path. -/
def getStoragePath (cfg : Config) (item : Item) : String :=
  match item.Attachments with
  | none => ""
  | some s =>
    if s = "" then ""
    else
      match goSplit s ',' with
      | [] => ""
      | a0 :: _ =>
        match splitN2 a0 ':' with
        | [k, rest] => filepathJoin [cfg.StoragePath, k, goTrimPre rest "storage:"]
        | _ => ""

/-- `CLI.printItem` from `src/main.go` as a function to output lines:
non-verbose prints only the stable id; verbose prints one row per
attachment entry that contains a colon (with the per-entry storage path),
or a single row with an empty path column when the attachments field is
NULL or empty. -/
def printItem (cfg : Config) (item : Item) (verbose : Bool) : List OutLine :=
  if !verbose then [OutLine.idOnly item.StableID]
  else
    let title := truncateString item.Title 25
    let tags := match item.Tags with
      | some t => truncateString t 15
      | none => ""
    match item.Attachments with
    | some s =>
      if s ≠ "" then
        (goSplit s ',').filterMap (fun att =>
          match splitN2 att ':' with
          | [k, rest] =>
            some (OutLine.row item.StableID title tags
              (filepathJoin [cfg.StoragePath, k, goTrimPre rest "storage:"]))
          | _ => none)
      else [OutLine.row item.StableID title tags ""]
    | none => [OutLine.row item.StableID title tags ""]

/-!
Relational semantics of `baseQuery`.  The Zotero tables touched by the
query are modelled as lists of rows; `LEFT JOIN` produces, for each row on
the left, either every matching right row or a single NULL (`none`); the
`WHERE` clause keeps a joined row only when its conditions evaluate to
TRUE (a comparison against NULL is not TRUE, hence `none → false` below);
`GROUP BY i.itemID` groups the surviving rows by item id in order of
first appearance, and `GROUP_CONCAT(DISTINCT e)` concatenates the
distinct non-NULL values of `e` in the group with commas, yielding NULL
for an empty collection.
-/

/-- A row of the `items` table (the columns the query reads). -/
structure ItemsRow where
  itemID : Nat
  key : String
  itemTypeID : Nat
deriving Repr, DecidableEq

/-- A row of `itemData`. -/
structure ItemDataRow where
  itemID : Nat
  fieldID : Nat
  valueID : Nat
deriving Repr, DecidableEq

/-- A row of `itemDataValues`. -/
structure ItemDataValuesRow where
  valueID : Nat
  value : String
deriving Repr, DecidableEq

/-- A row of `itemTypes`. -/
structure ItemTypesRow where
  itemTypeID : Nat
  display : Nat
deriving Repr, DecidableEq

/-- A row of `itemTags`. -/
structure ItemTagsRow where
  itemID : Nat
  tagID : Nat
deriving Repr, DecidableEq

/-- A row of `tags`. -/
structure TagsRow where
  tagID : Nat
  name : String
deriving Repr, DecidableEq

/-- A row of `itemAttachments` (`path` and `parentItemID` are nullable). -/
structure ItemAttachmentsRow where
  itemID : Nat
  parentItemID : Option Nat
  path : Option String
deriving Repr, DecidableEq

/-- A row of `fields`. -/
structure FieldsRow where
  fieldID : Nat
  fieldName : String
deriving Repr, DecidableEq

/-- The slice of the Zotero database read by `baseQuery`. -/
structure ZoteroDB where
  items : List ItemsRow
  itemData : List ItemDataRow
  itemDataValues : List ItemDataValuesRow
  itemTypes : List ItemTypesRow
  itemTags : List ItemTagsRow
  tags : List TagsRow
  itemAttachments : List ItemAttachmentsRow
  fields : List FieldsRow
deriving Repr, DecidableEq

/-- `LEFT JOIN` against one left row: all matching right rows, or a single
NULL row when nothing matches. -/
def optJoin {β : Type} (right : List β) (cond : β → Bool) : List (Option β) :=
  match right.filter cond with
  | [] => [none]
  | ms => ms.map some

/-- One joined row of `baseQuery` before grouping: the `items` row and the
(possibly NULL) rows contributed by each `LEFT JOIN`. -/
structure QueryRow where
  i : ItemsRow
  idRow : Option ItemDataRow
  idv : Option ItemDataValuesRow
  it : Option ItemTypesRow
  itag : Option ItemTagsRow
  t : Option TagsRow
  ia : Option ItemAttachmentsRow
  child : Option ItemsRow
deriving Repr, DecidableEq

/-- Join condition `ON id.valueID = idv.valueID` (NULL left side never
matches). -/
def idvJoinCond (oid : Option ItemDataRow) (x : ItemDataValuesRow) : Bool :=
  match oid with | some d => x.valueID == d.valueID | none => false

/-- Join condition `ON itag.tagID = t.tagID`. -/
def tagJoinCond (oitag : Option ItemTagsRow) (x : TagsRow) : Bool :=
  match oitag with | some g => x.tagID == g.tagID | none => false

/-- Join condition `ON ia.itemID = child.itemID`. -/
def childJoinCond (oia : Option ItemAttachmentsRow) (x : ItemsRow) : Bool :=
  match oia with | some a => a.itemID == x.itemID | none => false

/-- The joined rows produced for a single `items` row `i`, following the
join conditions of `baseQuery` in order (`itemData` on `itemID`,
`itemDataValues` on `valueID`, `itemTypes` on `itemTypeID`, `itemTags` on
`itemID`, `tags` on `tagID`, `itemAttachments` on parent-or-self,
`items child` on the attachment's `itemID`). -/
def rowsForItem (db : ZoteroDB) (i : ItemsRow) : List QueryRow :=
  (optJoin db.itemData (fun x => x.itemID == i.itemID)).flatMap fun oid =>
  (optJoin db.itemDataValues (idvJoinCond oid)).flatMap fun oidv =>
  (optJoin db.itemTypes (fun x => x.itemTypeID == i.itemTypeID)).flatMap fun oit =>
  (optJoin db.itemTags (fun x => x.itemID == i.itemID)).flatMap fun oitag =>
  (optJoin db.tags (tagJoinCond oitag)).flatMap fun ot =>
  (optJoin db.itemAttachments (fun x =>
      x.parentItemID == some i.itemID || x.itemID == i.itemID)).flatMap fun oia =>
  (optJoin db.items (childJoinCond oia)).map fun ochild =>
  ⟨i, oid, oidv, oit, oitag, ot, oia, ochild⟩

/-- All joined rows of `baseQuery` over the database. -/
def joinedRows (db : ZoteroDB) : List QueryRow :=
  db.items.flatMap (rowsForItem db)

/-- The scalar subquery `SELECT fieldID FROM fields WHERE fieldName =
\x27title\x27`: the first matching row's `fieldID`, or NULL. -/
def titleFieldID (db : ZoteroDB) : Option Nat :=
  ((db.fields.filter (fun f => f.fieldName == "title")).head?).map (·.fieldID)

/-- The fixed `WHERE` conditions of `baseQuery` on a joined row:
`it.display = 1`, `id.fieldID = (scalar subquery)`, and the `NOT EXISTS`
excluding items that are themselves child attachment rows. -/
def whereBase (db : ZoteroDB) (r : QueryRow) : Bool :=
  (match r.it with | some ty => ty.display == 1 | none => false) &&
  (match r.idRow, titleFieldID db with
   | some d, some f => d.fieldID == f
   | _, _ => false) &&
  !(db.itemAttachments.any (fun a => a.itemID == r.i.itemID && a.parentItemID.isSome))

/-- The argument `ListItems` binds to each `LIKE` placeholder:
`"%" + filter + "%"`. -/
def likeArg (f : String) : String := "%" ++ f ++ "%"

/-- The optional filter conditions `ListItems` appends: `idv.value LIKE ?`
when the title filter is non-empty and `t.name LIKE ?` when the tag filter
is non-empty (a NULL column never satisfies `LIKE`). -/
def whereFilters (tf gf : String) (r : QueryRow) : Bool :=
  (tf == "" || match r.idv with
    | some v => sqlLike (likeArg tf) v.value
    | none => false) &&
  (gf == "" || match r.t with
    | some tg => sqlLike (likeArg gf) tg.name
    | none => false)

/-- Full `WHERE` clause of the list query. -/
def wherePred (db : ZoteroDB) (tf gf : String) (r : QueryRow) : Bool :=
  whereBase db r && whereFilters tf gf r

/-- First-occurrence deduplication with an explicit seen-accumulator. -/
def ddgo {α : Type} [DecidableEq α] (seen : List α) : List α → List α
  | [] => []
  | x :: xs => if x ∈ seen then ddgo seen xs else x :: ddgo (x :: seen) xs

/-- Deduplicate keeping the first occurrence of each value. -/
def dedupFirst {α : Type} [DecidableEq α] (l : List α) : List α := ddgo [] l

/-- `GROUP_CONCAT(DISTINCT e)`: the distinct non-NULL values in first
appearance order, comma-joined; NULL when there are none. -/
def groupConcatDistinct (vals : List (Option String)) : Option String :=
  match dedupFirst (vals.filterMap (fun x => x)) with
  | [] => none
  | vs => some (joinSep "," vs)

/-- One row of the query's result set, as scanned into `Item`: `i.key`,
the `title` value, and the two nullable aggregate columns. -/
structure ResultRow where
  key : String
  title : Option String
  tags : Option String
  attachments : Option String
deriving Repr, DecidableEq

/-- The select expression `child.key || \x27:\x27 || COALESCE(ia.path,
\x27\x27)` on a joined row (NULL when `child` is NULL). -/
def attExpr (r : QueryRow) : Option String :=
  match r.child with
  | some c =>
    some (c.key ++ ":" ++ (match r.ia with | some a => a.path.getD "" | none => ""))
  | none => none

/-- Aggregation of one `GROUP BY i.itemID` group (`grp` is the group,
`r0` a representative row for the non-aggregated columns). -/
def aggRow (grp : List QueryRow) (r0 : QueryRow) : ResultRow :=
  { key := r0.i.key
    title := r0.idv.map (·.value)
    tags := groupConcatDistinct (grp.map (fun r => r.t.map (·.name)))
    attachments := groupConcatDistinct (grp.map attExpr) }

/-- Result set of `Repository.ListItems`'s query: joined rows filtered by
the `WHERE` clause, grouped by `i.itemID`, one aggregated result row per
group. -/
def queryListItems (db : ZoteroDB) (tf gf : String) : List ResultRow :=
  let rows := (joinedRows db).filter (wherePred db tf gf)
  let ids := dedupFirst (rows.map (fun r => r.i.itemID))
  ids.filterMap (fun iid =>
    match rows.filter (fun r => r.i.itemID == iid) with
    | [] => none
    | r0 :: rest => some (aggRow (r0 :: rest) r0))

/-- Item-level reading of `it.display = 1` (some matching `itemTypes` row
is displayable). -/
def typeOK (db : ZoteroDB) (i : ItemsRow) : Bool :=
  db.itemTypes.any fun ty => ty.itemTypeID == i.itemTypeID && ty.display == 1

/-- Item-level reading of the `NOT EXISTS` clause: the item is not itself
a child attachment. -/
def notChildAtt (db : ZoteroDB) (i : ItemsRow) : Bool :=
  !(db.itemAttachments.any fun a => a.itemID == i.itemID && a.parentItemID.isSome)

/-- `id.fieldID` equals the title field id from the scalar subquery. -/
def fieldOK (db : ZoteroDB) (d : ItemDataRow) : Bool :=
  match titleFieldID db with | some f => d.fieldID == f | none => false

/-- Item-level reading of the title conditions: some `itemData` row of the
item carries the title field and, when the title filter is non-empty, some
joined `itemDataValues` row satisfies the `LIKE`. -/
def titleRowOK (db : ZoteroDB) (tf : String) (i : ItemsRow) : Bool :=
  db.itemData.any fun d => d.itemID == i.itemID && fieldOK db d &&
    (tf == "" || db.itemDataValues.any fun v =>
      v.valueID == d.valueID && sqlLike (likeArg tf) v.value)

/-- Item-level reading of the tag condition: vacuous for an empty tag
filter, otherwise some tag of the item satisfies the `LIKE`. -/
def tagRowOK (db : ZoteroDB) (gf : String) (i : ItemsRow) : Bool :=
  gf == "" || db.itemTags.any fun g => g.itemID == i.itemID &&
    db.tags.any fun tg => tg.tagID == g.tagID && sqlLike (likeArg gf) tg.name

/-- An `items` row contributes a result row to the list query exactly when
all four item-level conditions hold. -/
def survives (db : ZoteroDB) (tf gf : String) (i : ItemsRow) : Bool :=
  typeOK db i && notChildAtt db i && titleRowOK db tf i && tagRowOK db gf i

/-!
Query strings and the fallible driver/OS layer.  `baseQuery` is the Go
raw-string constant transcribed byte for byte (apostrophes written as
`\x27`).  `DriverEnv` packages the outcomes of every external call the
program makes: `database/sql` connection opening, the scan of the
single-row query, the list query with its row scans and final iteration
error, and the OS `open` command.
-/

/-- The `baseQuery` constant from `src/main.go`. -/
def baseQuery : String :=
  "\n    SELECT \n        i.key,\n        idv.value as title,\n" ++
  "        GROUP_CONCAT(DISTINCT t.name) as tags,\n" ++
  "        GROUP_CONCAT(DISTINCT child.key || \x27:\x27 || COALESCE(ia.path, \x27\x27)) as attachments\n" ++
  "    FROM items i\n" ++
  "    LEFT JOIN itemData id ON i.itemID = id.itemID \n" ++
  "    LEFT JOIN itemDataValues idv ON id.valueID = idv.valueID\n" ++
  "    LEFT JOIN itemTypes it ON i.itemTypeID = it.itemTypeID\n" ++
  "    LEFT JOIN itemTags itag ON i.itemID = itag.itemID\n" ++
  "    LEFT JOIN tags t ON itag.tagID = t.tagID\n" ++
  "    LEFT JOIN itemAttachments ia ON (ia.parentItemID = i.itemID OR ia.itemID = i.itemID)\n" ++
  "    LEFT JOIN items child ON ia.itemID = child.itemID\n" ++
  "    WHERE it.display = 1\n" ++
  "        AND id.fieldID = (SELECT fieldID FROM fields WHERE fieldName = \x27title\x27)\n" ++
  "        AND NOT EXISTS (\n" ++
  "            SELECT 1 FROM itemAttachments \n" ++
  "            WHERE itemAttachments.itemID = i.itemID \n" ++
  "            AND itemAttachments.parentItemID IS NOT NULL)"

/-- The query `GetByStableID` issues:
`fmt.Sprintf("%s AND i.key = ? GROUP BY i.itemID", baseQuery)`. -/
def getByStableIDQuery : String :=
  baseQuery ++ " AND i.key = ? GROUP BY i.itemID"

/-- The query text `ListItems` builds: `baseQuery`, then ` AND `-joined
filter conditions when at least one filter is non-empty, then the
`GROUP BY`.  Filter values are bound as placeholder arguments, never
spliced into the text. -/
def buildListQuery (tf gf : String) : String :=
  baseQuery ++
  (if tf ≠ "" ∨ gf ≠ "" then
    (let conditions := (if tf ≠ "" then ["idv.value LIKE ?"] else []) ++
                       (if gf ≠ "" then ["t.name LIKE ?"] else [])
     if conditions.length > 0 then " AND " ++ joinSep " AND " conditions else "")
   else "") ++
  " GROUP BY i.itemID"

/-- The placeholder arguments `ListItems` binds, in order. -/
def buildListArgs (tf gf : String) : List String :=
  (if tf ≠ "" then [likeArg tf] else []) ++ (if gf ≠ "" then [likeArg gf] else [])

/-- A single read-only SQL statement: its first token is `SELECT`, it
contains no statement separator and no data- or schema-modifying
keyword. -/
def isSelectOnly (q : String) : Bool :=
  leadsIn "SELECT".toList
    (q.toList.dropWhile (fun c => c = ' ' ∨ c = '\n' ∨ c = '\t')) &&
  (["INSERT", "UPDATE", "DELETE", "DROP", "CREATE", "ALTER", "REPLACE",
    "ATTACH", "PRAGMA", "VACUUM", ";"].all
    (fun kw => !occursIn kw.toList q.toList))

/-- Outcomes of the external calls: `openErr` for `sql.Open`, `getScan`
for the single-row query+scan (keyed by query text and stable id),
`listQuery` for the list query (an execution error, or the scan outcome
of each returned row), `rowsErr` for `rows.Err()` after iteration, and
`runCmd` for `exec.Command("open", path).Run()` (`none` = success). -/
structure DriverEnv where
  openErr : Option String
  getScan : String → String → Except String Item
  listQuery : String → Except String (List (Except String Item))
  rowsErr : Option String
  runCmd : String → Option String

/-- `Repository.GetByStableID`: wraps any driver failure as
`fetching item: %w`; otherwise returns the scanned item. -/
def Repository.GetByStableID (env : DriverEnv) (stableID : String) :
    Except String Item :=
  match env.getScan getByStableIDQuery stableID with
  | .error e => .error ("fetching item: " ++ e)
  | .ok item => .ok item

/-- The scan loop of `Repository.ListItems`: first failing row scan aborts
with `scanning row: %w`, otherwise all items in order. -/
def scanAll : List (Except String Item) → Except String (List Item)
  | [] => .ok []
  | .error e :: _ => .error ("scanning row: " ++ e)
  | .ok item :: rest =>
    match scanAll rest with
    | .error e => .error e
    | .ok items => .ok (item :: items)

/-- `Repository.ListItems`: query execution failure (`executing query:`),
then the scan loop, then the post-iteration `rows.Err()` check
(`iterating rows:`). -/
def Repository.ListItems (env : DriverEnv) (tf gf : String) :
    Except String (List Item) :=
  match env.listQuery (buildListQuery tf gf) with
  | .error e => .error ("executing query: " ++ e)
  | .ok rows =>
    match scanAll rows with
    | .error e => .error e
    | .ok items =>
      match env.rowsErr with
      | some e => .error ("iterating rows: " ++ e)
      | none => .ok items

/-- `CLI.Open`: fetch the item, resolve the storage path, and run the OS
`open` command; the second component records the paths the external
command was launched on (in order). -/
def CLI.Open (env : DriverEnv) (cfg : Config) (stableID : String) :
    Except String Unit × List String :=
  match Repository.GetByStableID env stableID with
  | .error e => (.error ("getting item: " ++ e), [])
  | .ok item =>
    let path := getStoragePath cfg item
    if path = "" then (.error ("no attachment found for item: " ++ stableID), [])
    else
      match env.runCmd path with
      | some e => (.error ("opening file: " ++ e), [path])
      | none => (.ok (), [path])

/-- `CLI.Reference`: fetch the item, resolve the storage path, and print
the bracketed reference line (tags wrapped in braces, written `\x7b`/
`\x7d` here). -/
def CLI.Reference (env : DriverEnv) (cfg : Config) (stableID : String) :
    Except String OutLine :=
  match Repository.GetByStableID env stableID with
  | .error e => .error ("getting item: " ++ e)
  | .ok item =>
    let path := getStoragePath cfg item
    if path = "" then .error ("no attachment found for item: " ++ stableID)
    else
      let tags := match item.Tags with | some t => t | none => ""
      let tags1 := "\x7b" ++ tags ++ "\x7d"
      let tags2 := if tags1 = "\x7b\x7d" then "\x7b\x7d" else tags1
      .ok (OutLine.refLine ("[zotero: " ++ item.Title ++ ", stableid: " ++
        item.StableID ++ ", tags: " ++ tags2 ++ ", version: " ++
        cfg.Version ++ "](" ++ path ++ ")"))

/-- `CLI.List`: list, wrap failure as `listing items: %w`, print every
item. -/
def CLI.List (env : DriverEnv) (cfg : Config) (tf gf : String)
    (verbose : Bool) : Except String (List OutLine) :=
  match Repository.ListItems env tf gf with
  | .error e => .error ("listing items: " ++ e)
  | .ok items => .ok (items.flatMap fun item => printItem cfg item verbose)

/-- Process outcome of `main`: normal termination with the printed lines
and the OS commands run, or `log.Fatal`-style termination with the fatal
message (a non-zero exit). -/
inductive Outcome where
  | finished (lines : List OutLine) (cmds : List String)
  | fatal (msg : String)
deriving Repr, DecidableEq

/-- `main` from `src/main.go`, after flag parsing: `titleFlag`/`tagFlag`/
`verboseFlag` are the parsed `-f`/`-t`/`-v` values and `args` the
positional arguments.  No positional argument lists; `open`/`reference`
require exactly one id argument; anything else is fatal, as is any error
from the dispatched operation. -/
def goMain (cfg : Config) (env : DriverEnv) (titleFlag tagFlag : String)
    (verboseFlag : Bool) (args : List String) : Outcome :=
  match env.openErr with
  | some e => .fatal ("Error opening database: " ++ e)
  | none =>
    match args with
    | [] =>
      match CLI.List env cfg titleFlag tagFlag verboseFlag with
      | .error e => .fatal ("Error listing items: " ++ e)
      | .ok lines => .finished lines []
    | command :: rest =>
      if command = "open" then
        match rest with
        | [sid] =>
          match CLI.Open env cfg sid with
          | (.error e, _) => .fatal ("Error opening item: " ++ e)
          | (.ok _, cmds) => .finished [] cmds
        | _ => .fatal "Usage: store-zotero open <stableid>"
      else if command = "reference" then
        match rest with
        | [sid] =>
          match CLI.Reference env cfg sid with
          | .error e => .fatal ("Error generating reference: " ++ e)
          | .ok line => .finished [line] []
        | _ => .fatal "Usage: store-zotero reference <stableid>"
      else .fatal ("Unknown command: " ++ command)

/-- `Except` success test (Go `err == nil`). -/
def isOkE {A : Type} : Except String A → Bool
  | .ok _ => true
  | .error _ => false

/-- `pre` is the leading part of `s`. -/
def startsWithStr (pre s : String) : Bool :=
  leadsIn pre.toList s.toList

/-- The `cfg` literal built in `main`. -/
def mainCfg : Config :=
  { DBPath := "/Users/vania/data/zotero/zotero.sqlite"
    StoragePath := "/Users/vania/data/zotero/storage/"
    Version := "1.0" }

/-- The filter semantics the spec sentence asserts: non-empty title filter
means case-insensitive substring of the title, non-empty tag filter means
case-insensitive substring of some tag name, combined with AND. -/
def specMatchesFilters (tf gf : String) (title : String)
    (tagNames : List String) : Bool :=
  (tf == "" || specCISubstr tf title) &&
  (gf == "" || tagNames.any (fun t => specCISubstr gf t))

/-- Example database: one displayable item `KEY1` with title `"a-c"`, no
tags, no attachments. -/
def cexDB : ZoteroDB :=
  { items := [⟨1, "KEY1", 5⟩]
    itemData := [⟨1, 7, 10⟩]
    itemDataValues := [⟨10, "a-c"⟩]
    itemTypes := [⟨5, 1⟩]
    itemTags := []
    tags := []
    itemAttachments := []
    fields := [⟨7, "title"⟩] }

/-- Example item with one well-formed attachment entry. -/
def exItem : Item :=
  ⟨"ABCD2345", "A Title", some "tag1,tag2",
    some "ABCD2345:storage:file.pdf"⟩

/-- Example item whose attachments field is non-empty but contains no
colon in any comma-separated entry. -/
def exItemNoColon : Item :=
  ⟨"ZZZZ9999", "Another Title", none, some "malformed"⟩

/-- Example item with no attachment and no tags. -/
def noAttItem : Item := ⟨"KEY2", "T", none, none⟩

/-- Example item whose title and tags exceed the display widths. -/
def exItemLong : Item :=
  ⟨"ID9", "A quite long title that overflows the column",
    some "alpha,beta,gamma,delta", none⟩

/-- Example well-behaved driver oracle. -/
def envOK : DriverEnv :=
  { openErr := none
    getScan := fun _ _ => .ok exItem
    listQuery := fun _ => .ok [.ok exItem, .ok noAttItem]
    rowsErr := none
    runCmd := fun _ => none }

/-- Oracle whose list query fails. -/
def envQueryFail : DriverEnv :=
  { envOK with listQuery := fun _ => .error "disk I/O error" }

/-- Oracle whose single-row fetch fails. -/
def envFetchFail : DriverEnv :=
  { envOK with getScan := fun _ _ => .error "sql: no rows in result set" }

/-- Oracle that fetches an item without attachments. -/
def envNoAtt : DriverEnv :=
  { envOK with getScan := fun _ _ => .ok noAttItem }

/-!
Supporting lemmas.  The central fact is `survives_iff_exists_row`: an
`items` row passes the `WHERE` clause on some joined row exactly when the
four item-level conditions of `survives` hold; from it the result set of
the list query is characterised item by item.
-/

theorem optJoin_ne_nil {β : Type} (l : List β) (c : β → Bool) :
    optJoin l c ≠ [] := by
  unfold optJoin
  cases h : l.filter c <;> simp

theorem exists_mem_optJoin {β : Type} (l : List β) (c : β → Bool) :
    ∃ ob, ob ∈ optJoin l c := by
  cases h : optJoin l c with
  | nil => exact absurd h (optJoin_ne_nil l c)
  | cons a t => exact ⟨a, h ▸ List.mem_cons_self a t⟩

theorem mem_optJoin_some {β : Type} {l : List β} {c : β → Bool} {b : β} :
    some b ∈ optJoin l c ↔ b ∈ l ∧ c b = true := by
  rw [← List.mem_filter]
  unfold optJoin
  split
  next heq => rw [heq]; simp
  next heq => simp


theorem survives_iff_exists_row (db : ZoteroDB) (tf gf : String) (i : ItemsRow) :
    survives db tf gf i = true ↔
      ∃ r ∈ rowsForItem db i, wherePred db tf gf r = true := by
  constructor
  · intro hs
    simp only [survives, Bool.and_eq_true] at hs
    obtain ⟨⟨⟨hty, hnc⟩, httl⟩, htag⟩ := hs
    rw [typeOK, List.any_eq_true] at hty
    obtain ⟨ty, hty_mem, hty_ok⟩ := hty
    rw [Bool.and_eq_true] at hty_ok
    rw [titleRowOK, List.any_eq_true] at httl
    obtain ⟨d, hd_mem, hd_ok⟩ := httl
    rw [Bool.and_eq_true, Bool.and_eq_true] at hd_ok
    obtain ⟨⟨hd1, hd2⟩, hd3⟩ := hd_ok
    have hidv : ∃ oidv ∈ optJoin db.itemDataValues (idvJoinCond (some d)),
        (tf == "" ||
          match oidv with
          | some v => sqlLike (likeArg tf) v.value
          | none => false) = true := by
      cases htf : (tf == "") with
      | true =>
        obtain ⟨ov, hov⟩ := exists_mem_optJoin db.itemDataValues
          (idvJoinCond (some d))
        exact ⟨ov, hov, by simp⟩
      | false =>
        rw [htf, Bool.false_or, List.any_eq_true] at hd3
        obtain ⟨v, hv_mem, hv_ok⟩ := hd3
        rw [Bool.and_eq_true] at hv_ok
        refine ⟨some v, mem_optJoin_some.mpr ⟨hv_mem, hv_ok.1⟩, ?_⟩
        rw [Bool.or_eq_true]
        right
        exact hv_ok.2
    obtain ⟨oidv, hoidv, hD⟩ := hidv
    have htg : ∃ oitag ∈ optJoin db.itemTags (fun x => x.itemID == i.itemID),
        ∃ ot ∈ optJoin db.tags (tagJoinCond oitag),
        (gf == "" ||
          match ot with
          | some tg => sqlLike (likeArg gf) tg.name
          | none => false) = true := by
      cases hgf : (gf == "") with
      | true =>
        obtain ⟨og, hog⟩ := exists_mem_optJoin db.itemTags
          (fun x => x.itemID == i.itemID)
        obtain ⟨ot, hot⟩ := exists_mem_optJoin db.tags (tagJoinCond og)
        exact ⟨og, hog, ot, hot, by simp⟩
      | false =>
        rw [tagRowOK, hgf, Bool.false_or, List.any_eq_true] at htag
        obtain ⟨g, hg_mem, hg_ok⟩ := htag
        rw [Bool.and_eq_true] at hg_ok
        obtain ⟨hg1, hg2⟩ := hg_ok
        rw [List.any_eq_true] at hg2
        obtain ⟨tg, htg_mem, htg_ok⟩ := hg2
        rw [Bool.and_eq_true] at htg_ok
        refine ⟨some g, mem_optJoin_some.mpr ⟨hg_mem, hg1⟩,
          some tg, mem_optJoin_some.mpr ⟨htg_mem, htg_ok.1⟩, ?_⟩
        rw [Bool.or_eq_true]
        right
        exact htg_ok.2
    obtain ⟨oitag, hoitag, ot, hot, hE⟩ := htg
    obtain ⟨oia, hoia⟩ := exists_mem_optJoin db.itemAttachments
      (fun x => x.parentItemID == some i.itemID || x.itemID == i.itemID)
    obtain ⟨ochild, hochild⟩ := exists_mem_optJoin db.items (childJoinCond oia)
    refine ⟨⟨i, some d, oidv, some ty, oitag, ot, oia, ochild⟩, ?_, ?_⟩
    · simp only [rowsForItem, List.mem_flatMap, List.mem_map]
      exact ⟨some d, mem_optJoin_some.mpr ⟨hd_mem, hd1⟩,
        oidv, hoidv,
        some ty, mem_optJoin_some.mpr ⟨hty_mem, hty_ok.1⟩,
        oitag, hoitag, ot, hot, oia, hoia, ochild, hochild, rfl⟩
    · simp only [wherePred, whereBase, whereFilters, Bool.and_eq_true]
      refine ⟨⟨⟨hty_ok.2, ?_⟩, ?_⟩, hD, hE⟩
      · show (match (some d : Option ItemDataRow), titleFieldID db with
          | some dd, some f => dd.fieldID == f
          | _, _ => false) = true
        rw [fieldOK] at hd2
        cases htfid : titleFieldID db with
        | none => rw [htfid] at hd2; cases hd2
        | some f => rw [htfid] at hd2; exact hd2
      · exact hnc
  · rintro ⟨r, hr, hP⟩
    simp only [rowsForItem, List.mem_flatMap, List.mem_map] at hr
    obtain ⟨oid, hoid, oidv, hoidv, oit, hoit, oitag, hoitag,
      ot, hot, oia, hoia, ochild, hochild, rfl⟩ := hr
    simp only [wherePred, whereBase, whereFilters, Bool.and_eq_true] at hP
    obtain ⟨⟨⟨hA, hB⟩, hC⟩, hD, hE⟩ := hP
    simp only [survives, Bool.and_eq_true]
    refine ⟨⟨⟨?_, ?_⟩, ?_⟩, ?_⟩
    · cases oit with
      | none => cases hA
      | some ty =>
        obtain ⟨hmem, hcond⟩ := mem_optJoin_some.mp hoit
        rw [typeOK, List.any_eq_true]
        exact ⟨ty, hmem, by rw [Bool.and_eq_true]; exact ⟨hcond, hA⟩⟩
    · exact hC
    · cases oid with
      | none => cases hB
      | some d =>
        obtain ⟨hdmem, hdcond⟩ := mem_optJoin_some.mp hoid
        rw [titleRowOK, List.any_eq_true]
        refine ⟨d, hdmem, ?_⟩
        rw [Bool.and_eq_true, Bool.and_eq_true]
        refine ⟨⟨hdcond, ?_⟩, ?_⟩
        · rw [fieldOK]
          cases htfid : titleFieldID db with
          | none => rw [htfid] at hB; cases hB
          | some f => rw [htfid] at hB; exact hB
        · cases htf : (tf == "") with
          | true => rw [Bool.or_eq_true]; left; rfl
          | false =>
            rw [htf, Bool.false_or] at hD
            rw [Bool.false_or]
            cases oidv with
            | none => cases hD
            | some v =>
              obtain ⟨hvmem, hvcond⟩ := mem_optJoin_some.mp hoidv
              rw [List.any_eq_true]
              exact ⟨v, hvmem, by rw [Bool.and_eq_true]; exact ⟨hvcond, hD⟩⟩
    · rw [tagRowOK]
      cases hgf : (gf == "") with
      | true => rw [Bool.or_eq_true]; left; rfl
      | false =>
        rw [hgf, Bool.false_or] at hE
        rw [Bool.false_or]
        cases ot with
        | none => cases hE
        | some tg =>
          obtain ⟨htgmem, htgcond⟩ := mem_optJoin_some.mp hot
          cases oitag with
          | none => exact absurd htgcond (by simp [tagJoinCond])
          | some g =>
            obtain ⟨hgmem, hgcond⟩ := mem_optJoin_some.mp hoitag
            rw [List.any_eq_true]
            refine ⟨g, hgmem, ?_⟩
            rw [Bool.and_eq_true]
            refine ⟨hgcond, ?_⟩
            rw [List.any_eq_true]
            exact ⟨tg, htgmem, by rw [Bool.and_eq_true]; exact ⟨htgcond, hE⟩⟩

theorem mem_rowsForItem_i {db : ZoteroDB} {i : ItemsRow} {r : QueryRow}
    (h : r ∈ rowsForItem db i) : r.i = i := by
  simp only [rowsForItem, List.mem_flatMap, List.mem_map] at h
  obtain ⟨_, _, _, _, _, _, _, _, _, _, _, _, _, _, rfl⟩ := h
  rfl

theorem filter_wherePred_ne_nil_iff (db : ZoteroDB) (tf gf : String)
    (i : ItemsRow) :
    (rowsForItem db i).filter (wherePred db tf gf) ≠ [] ↔
      survives db tf gf i = true := by
  rw [Ne, List.filter_eq_nil_iff, survives_iff_exists_row]
  push_neg
  simp

theorem ddgo_replicate_mem {α : Type} [DecidableEq α] (seen : List α) (a : α)
    (ha : a ∈ seen) (n : Nat) (l : List α) :
    ddgo seen (List.replicate n a ++ l) = ddgo seen l := by
  induction n with
  | zero => rfl
  | succ m ih => simp [List.replicate_succ, ddgo, ha, ih]

theorem ddgo_flat (L : List ItemsRow) (n : ItemsRow → Nat) (seen : List Nat)
    (hnd : (L.map (fun j => j.itemID)).Nodup)
    (hs : ∀ j ∈ L, j.itemID ∉ seen) :
    ddgo seen (L.flatMap fun j => List.replicate (n j) j.itemID) =
      (L.filter (fun j => n j != 0)).map (fun j => j.itemID) := by
  induction L generalizing seen with
  | nil => rfl
  | cons j L' ih =>
    have hjid : j.itemID ∉ seen := hs j (List.mem_cons_self _ _)
    have hnd0 : (j.itemID :: L'.map (fun x => x.itemID)).Nodup := by simpa using hnd
    have hjL' : j.itemID ∉ L'.map (fun x => x.itemID) := (List.nodup_cons.mp hnd0).1
    have hnd' : (L'.map (fun x => x.itemID)).Nodup := (List.nodup_cons.mp hnd0).2
    rw [List.flatMap_cons]
    cases hn : n j with
    | zero =>
      rw [List.replicate_zero, List.nil_append,
        ih seen hnd' (fun x hx => hs x (List.mem_cons_of_mem _ hx))]
      simp [List.filter_cons, hn]
    | succ m =>
      rw [List.replicate_succ, List.cons_append]
      have h1 : ddgo seen (j.itemID ::
          (List.replicate m j.itemID ++
            L'.flatMap fun x => List.replicate (n x) x.itemID)) =
          j.itemID :: ddgo (j.itemID :: seen)
            (List.replicate m j.itemID ++
              L'.flatMap fun x => List.replicate (n x) x.itemID) := by
        simp [ddgo, hjid]
      rw [h1, ddgo_replicate_mem (j.itemID :: seen) j.itemID
        (List.mem_cons_self _ _) m]
      have hs' : ∀ x ∈ L', x.itemID ∉ j.itemID :: seen := by
        intro x hx
        rw [List.mem_cons]
        rintro (heq | hmem)
        · exact hjL' (heq ▸ List.mem_map_of_mem _ hx)
        · exact hs x (List.mem_cons_of_mem _ hx) hmem
      rw [ih (j.itemID :: seen) hnd' hs']
      simp [List.filter_cons, hn]

theorem filter_blocks (L : List ItemsRow) (F : ItemsRow → List QueryRow)
    (hF : ∀ j ∈ L, ∀ r ∈ F j, r.i = j)
    (hnd : (L.map (fun j => j.itemID)).Nodup)
    (i : ItemsRow) (hi : i ∈ L) :
    (L.flatMap F).filter (fun r => r.i.itemID == i.itemID) = F i := by
  induction L with
  | nil => cases hi
  | cons j L' ih =>
    have hnd0 : (j.itemID :: L'.map (fun x => x.itemID)).Nodup := by simpa using hnd
    have hjL' : j.itemID ∉ L'.map (fun x => x.itemID) := (List.nodup_cons.mp hnd0).1
    have hnd' : (L'.map (fun x => x.itemID)).Nodup := (List.nodup_cons.mp hnd0).2
    rw [List.flatMap_cons, List.filter_append]
    rcases List.mem_cons.mp hi with rfl | hi'
    · have h1 : (F i).filter (fun r => r.i.itemID == i.itemID) = F i :=
        List.filter_eq_self.mpr (fun r hr => by
          rw [hF i (List.mem_cons_self _ _) r hr]; simp)
      have h2 : (L'.flatMap F).filter (fun r => r.i.itemID == i.itemID) = [] := by
        rw [List.filter_eq_nil_iff]
        intro r hr
        obtain ⟨j', hj', hrj'⟩ := List.mem_flatMap.mp hr
        rw [hF j' (List.mem_cons_of_mem _ hj') r hrj']
        have hne : j'.itemID ≠ i.itemID :=
          fun h => hjL' (h ▸ List.mem_map_of_mem _ hj')
        simp [hne]
      rw [h1, h2, List.append_nil]
    · have h0 : (F j).filter (fun r => r.i.itemID == i.itemID) = [] := by
        rw [List.filter_eq_nil_iff]
        intro r hr
        rw [hF j (List.mem_cons_self _ _) r hr]
        have hne : j.itemID ≠ i.itemID :=
          fun h => hjL' (h ▸ List.mem_map_of_mem _ hi')
        simp [hne]
      rw [h0, List.nil_append]
      exact ih (fun j' hj' => hF j' (List.mem_cons_of_mem _ hj')) hnd' hi'

theorem map_filterMap_eq {α β γ : Type} (l : List α) (f : α → Option β)
    (g : β → γ) (h : α → γ)
    (H : ∀ a ∈ l, ∃ b, f a = some b ∧ g b = h a) :
    (l.filterMap f).map g = l.map h := by
  induction l with
  | nil => rfl
  | cons a t ih =>
    obtain ⟨b, hb, hg⟩ := H a (List.mem_cons_self a t)
    simp [List.filterMap_cons, hb, hg,
      ih (fun x hx => H x (List.mem_cons_of_mem a hx))]

theorem queryListItems_map_key (db : ZoteroDB) (tf gf : String)
    (hnd : (db.items.map (fun j => j.itemID)).Nodup) :
    (queryListItems db tf gf).map (fun r => r.key) =
      (db.items.filter (survives db tf gf)).map (fun j => j.key) := by
  have hrows : (joinedRows db).filter (wherePred db tf gf)
      = db.items.flatMap
          (fun j => (rowsForItem db j).filter (wherePred db tf gf)) :=
    List.filter_flatMap db.items (rowsForItem db) (wherePred db tf gf)
  have hmapid : ((joinedRows db).filter (wherePred db tf gf)).map
        (fun r => r.i.itemID)
      = db.items.flatMap (fun j =>
          List.replicate
            ((rowsForItem db j).filter (wherePred db tf gf)).length
            j.itemID) := by
    rw [hrows, List.map_flatMap]
    congr 1
    funext j
    have hall : ∀ x ∈ ((rowsForItem db j).filter
        (wherePred db tf gf)).map (fun r => r.i.itemID), x = j.itemID := by
      intro x hx
      obtain ⟨r, hr, rfl⟩ := List.mem_map.mp hx
      rw [mem_rowsForItem_i (List.mem_filter.mp hr).1]
    have h2 := List.eq_replicate_of_mem hall
    rwa [List.length_map] at h2
  have hids : dedupFirst (((joinedRows db).filter (wherePred db tf gf)).map
        (fun r => r.i.itemID))
      = (db.items.filter (survives db tf gf)).map (fun j => j.itemID) := by
    rw [hmapid]
    unfold dedupFirst
    rw [ddgo_flat db.items
      (fun j => ((rowsForItem db j).filter (wherePred db tf gf)).length)
      [] hnd (fun j _ => List.not_mem_nil _)]
    congr 1
    apply List.filter_congr
    intro j _
    cases hsv : survives db tf gf j with
    | false =>
      have hnil : (rowsForItem db j).filter (wherePred db tf gf) = [] := by
        by_contra hne
        have := (filter_wherePred_ne_nil_iff db tf gf j).mp hne
        rw [hsv] at this
        cases this
      simp [hnil]
    | true =>
      have hne := (filter_wherePred_ne_nil_iff db tf gf j).mpr hsv
      have hlen : ((rowsForItem db j).filter (wherePred db tf gf)).length ≠ 0 :=
        fun h => hne (List.length_eq_zero.mp h)
      simp [hlen]
  show ((dedupFirst (((joinedRows db).filter (wherePred db tf gf)).map
      (fun r => r.i.itemID))).filterMap (fun iid =>
        match ((joinedRows db).filter (wherePred db tf gf)).filter
            (fun r => r.i.itemID == iid) with
        | [] => none
        | r0 :: rest => some (aggRow (r0 :: rest) r0))).map (fun r => r.key)
    = (db.items.filter (survives db tf gf)).map (fun j => j.key)
  rw [hids, List.filterMap_map]
  apply map_filterMap_eq
  intro i hii
  have hi_items : i ∈ db.items := (List.mem_filter.mp hii).1
  have hsv : survives db tf gf i = true := (List.mem_filter.mp hii).2
  have hgrpi : ((joinedRows db).filter (wherePred db tf gf)).filter
      (fun r => r.i.itemID == i.itemID)
      = (rowsForItem db i).filter (wherePred db tf gf) := by
    rw [hrows]
    exact filter_blocks db.items _
      (fun j _ r hr => mem_rowsForItem_i (List.mem_filter.mp hr).1)
      hnd i hi_items
  have hne : (rowsForItem db i).filter (wherePred db tf gf) ≠ [] :=
    (filter_wherePred_ne_nil_iff db tf gf i).mpr hsv
  cases hfl : (rowsForItem db i).filter (wherePred db tf gf) with
  | nil => exact absurd hfl hne
  | cons r0 rest =>
    refine ⟨aggRow (r0 :: rest) r0, ?_, ?_⟩
    · show (match ((joinedRows db).filter (wherePred db tf gf)).filter
          (fun r => r.i.itemID == i.itemID) with
        | [] => none
        | r0 :: rest => some (aggRow (r0 :: rest) r0))
        = some (aggRow (r0 :: rest) r0)
      rw [hgrpi, hfl]
    · have hr0 : r0 ∈ (rowsForItem db i).filter (wherePred db tf gf) :=
        hfl ▸ List.mem_cons_self _ _
      show r0.i.key = i.key
      rw [mem_rowsForItem_i (List.mem_filter.mp hr0).1]

theorem takeWhile_append_cons {α : Type} (p : α → Bool) (k : List α) (a : α)
    (t : List α) (hk : ∀ c ∈ k, p c = true) (ha : p a = false) :
    (k ++ a :: t).takeWhile p = k := by
  induction k with
  | nil => simp [List.takeWhile_cons, ha]
  | cons c k' ih =>
    have hc : p c = true := hk c (List.mem_cons_self _ _)
    simp [List.takeWhile_cons, hc,
      ih (fun x hx => hk x (List.mem_cons_of_mem _ hx))]

theorem dropWhile_append_cons {α : Type} (p : α → Bool) (k : List α) (a : α)
    (t : List α) (hk : ∀ c ∈ k, p c = true) (ha : p a = false) :
    (k ++ a :: t).dropWhile p = a :: t := by
  induction k with
  | nil => simp [List.dropWhile_cons, ha]
  | cons c k' ih =>
    have hc : p c = true := hk c (List.mem_cons_self _ _)
    simp [List.dropWhile_cons, hc,
      ih (fun x hx => hk x (List.mem_cons_of_mem _ hx))]

theorem splitListOn_ne_nil (sep : Char) (cs : List Char) :
    splitListOn sep cs ≠ [] := by
  cases cs with
  | nil => simp [splitListOn]
  | cons c cs' =>
    unfold splitListOn
    by_cases h : c = sep
    · simp [h]
    · simp only [h, if_false]
      cases hs : splitListOn sep cs' <;> simp

theorem goSplit_ne_nil (s : String) (sep : Char) : goSplit s sep ≠ [] := by
  unfold goSplit
  intro h
  exact splitListOn_ne_nil sep s.toList (List.map_eq_nil_iff.mp h)

theorem splitN2_decomp (k rest : String) (hk : ':' ∉ k.toList) :
    splitN2 (String.mk (k.toList ++ ':' :: rest.toList)) ':' = [k, rest] := by
  show (if (k.toList ++ ':' :: rest.toList).any (· == ':') then
      [String.mk ((k.toList ++ ':' :: rest.toList).takeWhile (· ≠ ':')),
       String.mk (((k.toList ++ ':' :: rest.toList).dropWhile (· ≠ ':')).tail)]
    else [String.mk (k.toList ++ ':' :: rest.toList)]) = [k, rest]
  have hany : (k.toList ++ ':' :: rest.toList).any (· == ':') = true := by
    simp
  rw [if_pos hany]
  have hkp : ∀ c ∈ k.toList, (decide (c ≠ ':')) = true := by
    intro c hc
    simp only [decide_eq_true_eq]
    exact fun h => hk (h ▸ hc)
  rw [takeWhile_append_cons _ k.toList ':' rest.toList hkp (by simp),
    dropWhile_append_cons _ k.toList ':' rest.toList hkp (by simp)]
  rfl

theorem splitN2_no_sep (s : String) (sep : Char) (h : sep ∉ s.toList) :
    splitN2 s sep = [s] := by
  unfold splitN2
  rw [if_neg]
  intro hany
  rw [List.any_eq_true] at hany
  obtain ⟨c, hc, hcs⟩ := hany
  exact h ((beq_iff_eq.mp hcs) ▸ hc)

theorem truncateString_cases (s : String) (n : Nat) (h3 : 3 ≤ n) :
    (s.toList.length ≤ n → truncateString s n = s) ∧
    (n < s.toList.length →
      (truncateString s n).toList.length = n ∧
      ∃ pre : String, truncateString s n = pre ++ "..." ∧
        pre.toList.length = n - 3) := by
  constructor
  · intro hle
    unfold truncateString
    rw [if_pos hle]
  · intro hgt
    have hnle : ¬s.toList.length ≤ n := not_le.mpr hgt
    unfold truncateString
    rw [if_neg hnle]
    constructor
    · show ((s.toList.take (n - 3)) ++ "...".toList).length = n
      rw [List.length_append, List.length_take]
      have h1 : n - 3 ≤ s.toList.length := le_of_lt (lt_of_le_of_lt (Nat.sub_le n 3) hgt)
      rw [min_eq_left h1]
      show n - 3 + 3 = n
      omega
    · exact ⟨String.mk (s.toList.take (n - 3)), rfl, by
        show (s.toList.take (n - 3)).length = n - 3
        rw [List.length_take]
        have h1 : n - 3 ≤ s.toList.length := le_of_lt (lt_of_le_of_lt (Nat.sub_le n 3) hgt)
        rw [min_eq_left h1]⟩

theorem leadsIn_refl_append (pre add : List Char) :
    leadsIn pre (pre ++ add) = true := by
  induction pre with
  | nil => rfl
  | cons c cs ih => simp [leadsIn, ih]

theorem scanAll_isOk (rows : List (Except String Item)) :
    isOkE (scanAll rows) = (rows.all (fun r => isOkE r)) := by
  induction rows with
  | nil => rfl
  | cons r rest ih =>
    cases r with
    | error e => rfl
    | ok item =>
      show isOkE (match scanAll rest with
        | .error e => .error e
        | .ok items => .ok (item :: items)) = _
      cases hs : scanAll rest with
      | error e => rw [List.all_cons, ← ih, hs]; rfl
      | ok items => rw [List.all_cons, ← ih, hs]; rfl

theorem scanAll_error_msg (rows : List (Except String Item)) (e : String)
    (h : scanAll rows = .error e) :
    startsWithStr "scanning row: " e = true := by
  induction rows with
  | nil => cases h
  | cons r rest ih =>
    cases r with
    | error e0 =>
      have h2 : (Except.error ("scanning row: " ++ e0) :
          Except String (List Item)) = .error e := h
      cases h2
      exact leadsIn_refl_append _ _
    | ok item =>
      revert h
      show (match scanAll rest with
        | .error e => (.error e : Except String (List Item))
        | .ok items => .ok (item :: items)) = .error e → _
      cases hs : scanAll rest with
      | error e1 =>
        intro h2
        cases h2
        exact ih hs
      | ok items =>
        intro h2
        cases h2

theorem truncateString_len_le (s : String) (n : Nat) (h3 : 3 ≤ n) :
    (truncateString s n).toList.length ≤ n := by
  rcases le_or_lt s.toList.length n with hle | hlt
  · rw [(truncateString_cases s n h3).1 hle]; exact hle
  · exact le_of_eq ((truncateString_cases s n h3).2 hlt).1

/-- C1: attachment-path resolution takes the first comma-separated
attachment pair, splits it at the first colon into key and relative
segment, strips the `storage:` prefix from the segment, and joins storage
root, key and segment; it returns the empty string when the attachments
field is NULL or empty. -/
theorem getStoragePath_resolution (cfg : Config) (item : Item) :
    ((item.Attachments = none ∨ item.Attachments = some "") →
      getStoragePath cfg item = "") ∧
    (∀ s k rest, item.Attachments = some s → s ≠ "" →
      (goSplit s ',').headD "" = String.mk (k.toList ++ ':' :: rest.toList) →
      ':' ∉ k.toList →
      getStoragePath cfg item =
        filepathJoin [cfg.StoragePath, k, goTrimPre rest "storage:"]) := by
  constructor
  · rintro (h | h) <;> simp [getStoragePath, h]
  · intro s k rest h1 h2 hhead hk
    unfold getStoragePath
    simp only [h1]
    rw [if_neg h2]
    cases hsp : goSplit s ',' with
    | nil => exact absurd hsp (goSplit_ne_nil s ',')
    | cons a0 t =>
      rw [hsp, List.headD_cons] at hhead
      simp only [hhead]
      rw [splitN2_decomp k rest hk]

theorem getStoragePath_resolution_witness :
    getStoragePath mainCfg exItem =
      filepathJoin [mainCfg.StoragePath, "ABCD2345",
        goTrimPre "storage:file.pdf" "storage:"] ∧
    getStoragePath mainCfg exItem =
      "/Users/vania/data/zotero/storage/ABCD2345/file.pdf" :=
  ⟨(getStoragePath_resolution mainCfg exItem).2 "ABCD2345:storage:file.pdf"
      "ABCD2345" "storage:file.pdf" rfl (by decide) (by decide) (by decide),
    by decide⟩

/-- C8: `truncateString` is total and width-bounded for every width of at
least 3: a string of at most `n` runes is returned unchanged, a longer one
yields exactly `n` runes ending in `"..."`; in particular the program's
calls at widths 25 and 15 stay in range. -/
theorem truncateString_total_bounded (s : String) (n : Nat) (h3 : 3 ≤ n) :
    (s.toList.length ≤ n → truncateString s n = s) ∧
    (n < s.toList.length →
      (truncateString s n).toList.length = n ∧
      ∃ pre : String, truncateString s n = pre ++ "..." ∧
        pre.toList.length = n - 3) :=
  truncateString_cases s n h3

theorem truncateString_total_bounded_witness :
    truncateString "abc" 25 = "abc" ∧
    (truncateString "abcdefghijklmnopqrstuvwxyz012345" 25).toList.length
      = 25 :=
  ⟨(truncateString_total_bounded "abc" 25 (by decide)).1 (by decide),
    ((truncateString_total_bounded "abcdefghijklmnopqrstuvwxyz012345" 25
      (by decide)).2 (by decide)).1⟩

/-- C9: an item whose attachments field is present and non-empty but in
which no comma-separated entry contains a colon produces zero verbose
output lines, while its non-verbose output still prints the identifier. -/
theorem printItem_colonless (cfg : Config) (item : Item) (s : String)
    (h1 : item.Attachments = some s) (h2 : s ≠ "")
    (h3 : ∀ a ∈ goSplit s ',', ':' ∉ a.toList) :
    printItem cfg item true = [] ∧
    printItem cfg item false = [OutLine.idOnly item.StableID] := by
  constructor
  · unfold printItem
    rw [if_neg (by decide : ¬((!true) = true))]
    simp only [h1]
    rw [if_pos h2, List.filterMap_eq_nil_iff]
    intro att hatt
    rw [splitN2_no_sep att ':' (h3 att hatt)]
  · rfl

theorem printItem_colonless_witness :
    printItem mainCfg exItemNoColon true = [] ∧
    printItem mainCfg exItemNoColon false = [OutLine.idOnly "ZZZZ9999"] :=
  printItem_colonless mainCfg exItemNoColon "malformed" rfl (by decide)
    (by decide)

/-- C3: non-verbose output is exactly the untouched stable id; every
verbose output line carries the id unmodified, the title truncated to 25
runes and the tags truncated to 15 runes; truncation keeps short values
unchanged and cuts longer ones to exactly the width with a trailing
ellipsis. -/
theorem printItem_truncation (cfg : Config) (item : Item) :
    printItem cfg item false = [OutLine.idOnly item.StableID] ∧
    (∀ l ∈ printItem cfg item true, ∃ path,
      l = OutLine.row item.StableID (truncateString item.Title 25)
        (truncateString (item.Tags.getD "") 15) path) ∧
    (truncateString item.Title 25).toList.length ≤ 25 ∧
    (25 < item.Title.toList.length →
      (truncateString item.Title 25).toList.length = 25 ∧
      ∃ pre, truncateString item.Title 25 = pre ++ "...") ∧
    (item.Title.toList.length ≤ 25 →
      truncateString item.Title 25 = item.Title) ∧
    (truncateString (item.Tags.getD "") 15).toList.length ≤ 15 ∧
    (15 < (item.Tags.getD "").toList.length →
      (truncateString (item.Tags.getD "") 15).toList.length = 15 ∧
      ∃ pre, truncateString (item.Tags.getD "") 15 = pre ++ "...") := by
  have htags : (match item.Tags with
      | some t => truncateString t 15
      | none => "") = truncateString (item.Tags.getD "") 15 := by
    cases item.Tags <;> rfl
  refine ⟨rfl, ?_, truncateString_len_le _ _ (by decide), ?_, ?_,
    truncateString_len_le _ _ (by decide), ?_⟩
  · intro l hl
    unfold printItem at hl
    rw [if_neg (by decide : ¬((!true) = true))] at hl
    cases hatt : item.Attachments with
    | none =>
      simp only [hatt] at hl
      rcases List.mem_singleton.mp hl with rfl
      exact ⟨"", by rw [htags]⟩
    | some s =>
      simp only [hatt] at hl
      by_cases hs : s = ""
      · rw [if_neg (by simp [hs])] at hl
        rcases List.mem_singleton.mp hl with rfl
        exact ⟨"", by rw [htags]⟩
      · rw [if_pos hs] at hl
        rw [List.mem_filterMap] at hl
        obtain ⟨att, _, hfa⟩ := hl
        rcases hsp : splitN2 att ':' with _ | ⟨k, l1⟩
        · rw [hsp] at hfa; cases hfa
        · rcases l1 with _ | ⟨rest, l2⟩
          · rw [hsp] at hfa; cases hfa
          · rcases l2 with _ | ⟨x, l3⟩
            · rw [hsp] at hfa
              refine ⟨filepathJoin [cfg.StoragePath, k, goTrimPre rest "storage:"], ?_⟩
              have := Option.some.inj hfa
              rw [← this, htags]
            · rw [hsp] at hfa; cases hfa
  · intro hgt
    obtain ⟨hlen, pre, hpre, _⟩ :=
      (truncateString_cases item.Title 25 (by decide)).2 hgt
    exact ⟨hlen, pre, hpre⟩
  · exact (truncateString_cases item.Title 25 (by decide)).1
  · intro hgt
    obtain ⟨hlen, pre, hpre, _⟩ :=
      (truncateString_cases (item.Tags.getD "") 15 (by decide)).2 hgt
    exact ⟨hlen, pre, hpre⟩

theorem printItem_truncation_witness :
    printItem mainCfg exItemLong false = [OutLine.idOnly "ID9"] ∧
    (truncateString exItemLong.Title 25).toList.length = 25 :=
  ⟨(printItem_truncation mainCfg exItemLong).1,
    ((printItem_truncation mainCfg exItemLong).2.2.2.1 (by decide)).1⟩

/-- C2 (amended): listing returns exactly the eligible items whose columns
satisfy the SQL `LIKE` conditions the code builds — `%titleFilter%`
against the title and `%tagFilter%` against some tag name, AND-combined,
with `%`/`_` acting as wildcards and ASCII-only case folding — rather
than plain case-insensitive substring tests.  Stated over any database
whose `items.itemID` column is unique (its primary key). -/
theorem listItems_like_filter (db : ZoteroDB) (tf gf : String)
    (hnd : (db.items.map (fun j => j.itemID)).Nodup) :
    (queryListItems db tf gf).map (fun r => r.key) =
      (db.items.filter (survives db tf gf)).map (fun j => j.key) :=
  queryListItems_map_key db tf gf hnd

theorem listItems_like_filter_witness :
    (queryListItems cexDB "a" "").map (fun r => r.key) =
      (cexDB.items.filter (survives cexDB "a" "")).map (fun j => j.key) ∧
    (queryListItems cexDB "a" "").map (fun r => r.key) = ["KEY1"] :=
  ⟨listItems_like_filter cexDB "a" "" (by decide), by decide⟩

/-- C2 counterexample: with title filter `"a_c"` the single item of
`cexDB`, whose only title value is `"a-c"`, is returned (SQLite `LIKE`
lets `_` match the `-`), yet `"a_c"` is not a case-insensitive substring
of `"a-c"`, so listing does not return exactly the items passing the
spec's substring filter. -/
theorem listItems_substring_claim_false :
    (queryListItems cexDB "a_c" "").map (fun r => r.key) = ["KEY1"] ∧
    cexDB.itemDataValues = [⟨10, "a-c"⟩] ∧
    specMatchesFilters "a_c" "" "a-c" [] = false :=
  ⟨by decide, rfl, by decide⟩

/-- C7: over any database whose `items.itemID` (primary key) and
`items.key` columns are duplicate-free, the list query yields pairwise
distinct stable identifiers — one result row per surviving source item —
and a returned row's tags and attachments columns may both be NULL, as
the concrete database `cexDB` shows. -/
theorem listItems_distinct_keys_optional_fields :
    (∀ (db : ZoteroDB) (tf gf : String),
      (db.items.map (fun j => j.itemID)).Nodup →
      (db.items.map (fun j => j.key)).Nodup →
      ((queryListItems db tf gf).map (fun r => r.key)).Nodup) ∧
    queryListItems cexDB "" "" =
      [{ key := "KEY1", title := some "a-c", tags := none,
         attachments := none }] := by
  constructor
  · intro db tf gf hnd hkeys
    rw [queryListItems_map_key db tf gf hnd]
    exact List.Sublist.nodup ((List.filter_sublist _).map _) hkeys
  · decide

theorem listItems_distinct_keys_optional_fields_witness :
    ((queryListItems cexDB "" "").map (fun r => r.key)).Nodup :=
  listItems_distinct_keys_optional_fields.1 cexDB "" "" (by decide)
    (by decide)

set_option maxRecDepth 100000 in
/-- C6: both repository queries are single read-only SELECT statements,
for every filter combination: the query text starts with `SELECT`,
contains no statement separator and no data- or schema-modifying keyword;
filter values are bound as placeholder arguments, never spliced into the
query text, so no filter choice can alter the statement kind. -/
theorem queries_select_only :
    isSelectOnly getByStableIDQuery = true ∧
    (∀ tf gf, isSelectOnly (buildListQuery tf gf) = true) := by
  constructor
  · decide
  · intro tf gf
    by_cases htf : tf = ""
    · subst htf
      by_cases hgf : gf = ""
      · subst hgf
        decide
      · rw [buildListQuery, if_pos (Or.inr hgf), if_pos hgf]
        decide
    · by_cases hgf : gf = ""
      · subst hgf
        rw [buildListQuery, if_pos (Or.inl htf), if_pos htf]
        decide
      · rw [buildListQuery, if_pos (Or.inl htf), if_pos htf, if_pos hgf]
        decide

/-- C10: `Open` launches the external `open` command at most once, never
on an empty path, and not at all when the fetch fails or the resolved
path is empty — in those cases it returns an error with no command run;
any command that does run is run on the fetched item's resolved storage
path. -/
theorem open_cmd_guard (env : DriverEnv) (cfg : Config) (sid : String) :
    (CLI.Open env cfg sid).2.length ≤ 1 ∧
    (∀ p ∈ (CLI.Open env cfg sid).2, p ≠ "") ∧
    (∀ e, env.getScan getByStableIDQuery sid = .error e →
      CLI.Open env cfg sid =
        (.error ("getting item: " ++ ("fetching item: " ++ e)), [])) ∧
    (∀ item, env.getScan getByStableIDQuery sid = .ok item →
      getStoragePath cfg item = "" →
      CLI.Open env cfg sid =
        (.error ("no attachment found for item: " ++ sid), [])) ∧
    (∀ item, env.getScan getByStableIDQuery sid = .ok item →
      ∀ p ∈ (CLI.Open env cfg sid).2, p = getStoragePath cfg item) := by
  cases hg : env.getScan getByStableIDQuery sid with
  | error e =>
    have hO : CLI.Open env cfg sid =
        (.error ("getting item: " ++ ("fetching item: " ++ e)), []) := by
      unfold CLI.Open Repository.GetByStableID
      rw [hg]
    refine ⟨by rw [hO]; simp, by rw [hO]; simp, ?_, ?_, ?_⟩
    · intro e' he'
      cases he'
      exact hO
    · intro item hitem
      cases hitem
    · intro item hitem
      cases hitem
  | ok item =>
    have hO : CLI.Open env cfg sid =
        (if getStoragePath cfg item = ""
         then (.error ("no attachment found for item: " ++ sid), [])
         else match env.runCmd (getStoragePath cfg item) with
           | some e =>
             (.error ("opening file: " ++ e), [getStoragePath cfg item])
           | none => (.ok (), [getStoragePath cfg item])) := by
      unfold CLI.Open Repository.GetByStableID
      rw [hg]
    by_cases hp : getStoragePath cfg item = ""
    · rw [if_pos hp] at hO
      refine ⟨by rw [hO]; simp, by rw [hO]; simp, ?_, ?_, ?_⟩
      · intro e' he'
        cases he'
      · intro item' hitem' _
        cases hitem'
        exact hO
      · intro item' hitem' p hpmem
        rw [hO] at hpmem
        exact absurd hpmem (List.not_mem_nil p)
    · rw [if_neg hp] at hO
      cases hr : env.runCmd (getStoragePath cfg item) with
      | some e0 =>
        rw [hr] at hO
        have hO2 : CLI.Open env cfg sid =
            (.error ("opening file: " ++ e0), [getStoragePath cfg item]) := hO
        refine ⟨by rw [hO2]; simp, ?_, ?_, ?_, ?_⟩
        · intro p hpmem
          rw [hO2] at hpmem
          rcases List.mem_singleton.mp hpmem with rfl
          exact hp
        · intro e' he'
          cases he'
        · intro item' hitem' hempty
          cases hitem'
          exact absurd hempty hp
        · intro item' hitem' p hpmem
          cases hitem'
          rw [hO2] at hpmem
          rcases List.mem_singleton.mp hpmem with rfl
          rfl
      | none =>
        rw [hr] at hO
        have hO2 : CLI.Open env cfg sid =
            (.ok (), [getStoragePath cfg item]) := hO
        refine ⟨by rw [hO2]; simp, ?_, ?_, ?_, ?_⟩
        · intro p hpmem
          rw [hO2] at hpmem
          rcases List.mem_singleton.mp hpmem with rfl
          exact hp
        · intro e' he'
          cases he'
        · intro item' hitem' hempty
          cases hitem'
          exact absurd hempty hp
        · intro item' hitem' p hpmem
          cases hitem'
          rw [hO2] at hpmem
          rcases List.mem_singleton.mp hpmem with rfl
          rfl

theorem open_cmd_guard_witness :
    CLI.Open envFetchFail mainCfg "X1" =
      (.error ("getting item: " ++
        ("fetching item: " ++ "sql: no rows in result set")), []) ∧
    CLI.Open envNoAtt mainCfg "KEY2" =
      (.error ("no attachment found for item: " ++ "KEY2"), []) :=
  ⟨(open_cmd_guard envFetchFail mainCfg "X1").2.2.1
      "sql: no rows in result set" rfl,
    (open_cmd_guard envNoAtt mainCfg "KEY2").2.2.2.1 noAttItem rfl
      (by decide)⟩

theorem goMain_nil_eq (cfg : Config) (env : DriverEnv) (tf gf : String)
    (v : Bool) (h0 : env.openErr = none) :
    goMain cfg env tf gf v [] =
      (match CLI.List env cfg tf gf v with
       | .error e => .fatal ("Error listing items: " ++ e)
       | .ok lines => .finished lines []) := by
  unfold goMain
  rw [h0]

theorem goMain_open_eq (cfg : Config) (env : DriverEnv) (tf gf : String)
    (v : Bool) (sid : String) (h0 : env.openErr = none) :
    goMain cfg env tf gf v ["open", sid] =
      (match CLI.Open env cfg sid with
       | (.error e, _) => .fatal ("Error opening item: " ++ e)
       | (.ok _, cmds) => .finished [] cmds) := by
  unfold goMain
  rw [h0]
  rfl

theorem goMain_reference_eq (cfg : Config) (env : DriverEnv)
    (tf gf : String) (v : Bool) (sid : String) (h0 : env.openErr = none) :
    goMain cfg env tf gf v ["reference", sid] =
      (match CLI.Reference env cfg sid with
       | .error e => .fatal ("Error generating reference: " ++ e)
       | .ok line => .finished [line] []) := by
  unfold goMain
  rw [h0]
  rfl

theorem goMain_open_usage (cfg : Config) (env : DriverEnv) (tf gf : String)
    (v : Bool) (rest : List String) (h0 : env.openErr = none)
    (hlen : rest.length ≠ 1) :
    goMain cfg env tf gf v ("open" :: rest) =
      .fatal "Usage: store-zotero open <stableid>" := by
  unfold goMain
  rw [h0]
  cases rest with
  | nil => rfl
  | cons a t =>
    cases t with
    | nil => exact absurd rfl hlen
    | cons b t2 => rfl

theorem goMain_reference_usage (cfg : Config) (env : DriverEnv)
    (tf gf : String) (v : Bool) (rest : List String)
    (h0 : env.openErr = none) (hlen : rest.length ≠ 1) :
    goMain cfg env tf gf v ("reference" :: rest) =
      .fatal "Usage: store-zotero reference <stableid>" := by
  unfold goMain
  rw [h0]
  cases rest with
  | nil => rfl
  | cons a t =>
    cases t with
    | nil => exact absurd rfl hlen
    | cons b t2 => rfl

theorem goMain_unknown (cfg : Config) (env : DriverEnv) (tf gf : String)
    (v : Bool) (command : String) (rest : List String)
    (h0 : env.openErr = none) (h1 : command ≠ "open")
    (h2 : command ≠ "reference") :
    goMain cfg env tf gf v (command :: rest) =
      .fatal ("Unknown command: " ++ command) := by
  simp only [goMain, h0]
  rw [if_neg h1, if_neg h2]

/-- C4: each failing external step — single-row fetch, list-query
execution, row scan, row iteration, missing-attachment resolution, OS
`open` command — yields an error wrapped with its context message and no
other result, the repository/CLI operations fail in exactly those cases
(an `Except` result carries no partial value alongside an error by
construction), and every such error propagates to `main` as a fatal
termination. -/
theorem errors_wrapped_fatal (env : DriverEnv) (cfg : Config)
    (tf gf sid : String) (v : Bool) :
    (∀ e, env.getScan getByStableIDQuery sid = .error e →
      Repository.GetByStableID env sid =
        .error ("fetching item: " ++ e)) ∧
    (∀ item, env.getScan getByStableIDQuery sid = .ok item →
      Repository.GetByStableID env sid = .ok item) ∧
    (∀ e, env.listQuery (buildListQuery tf gf) = .error e →
      Repository.ListItems env tf gf =
        .error ("executing query: " ++ e)) ∧
    (isOkE (Repository.ListItems env tf gf) =
      (match env.listQuery (buildListQuery tf gf) with
       | .error _ => false
       | .ok rows => rows.all (fun r => isOkE r) && env.rowsErr.isNone)) ∧
    (∀ e, Repository.ListItems env tf gf = .error e →
      (startsWithStr "executing query: " e ||
       startsWithStr "scanning row: " e ||
       startsWithStr "iterating rows: " e) = true) ∧
    (∀ e cmds, CLI.Open env cfg sid = (.error e, cmds) →
      (startsWithStr "getting item: " e ||
       startsWithStr "no attachment found for item: " e ||
       startsWithStr "opening file: " e) = true) ∧
    (env.openErr = none →
      (∀ e, CLI.List env cfg tf gf v = .error e →
        goMain cfg env tf gf v [] =
          .fatal ("Error listing items: " ++ e)) ∧
      (∀ e cmds, CLI.Open env cfg sid = (.error e, cmds) →
        goMain cfg env tf gf v ["open", sid] =
          .fatal ("Error opening item: " ++ e)) ∧
      (∀ e, CLI.Reference env cfg sid = .error e →
        goMain cfg env tf gf v ["reference", sid] =
          .fatal ("Error generating reference: " ++ e))) ∧
    (∀ e, env.openErr = some e →
      goMain cfg env tf gf v [] =
        .fatal ("Error opening database: " ++ e)) := by
  refine ⟨?_, ?_, ?_, ?_, ?_, ?_, ?_, ?_⟩
  · intro e he
    unfold Repository.GetByStableID
    rw [he]
  · intro item hitem
    unfold Repository.GetByStableID
    rw [hitem]
  · intro e he
    unfold Repository.ListItems
    rw [he]
  · cases hlq : env.listQuery (buildListQuery tf gf) with
    | error e =>
      have hL : Repository.ListItems env tf gf =
          .error ("executing query: " ++ e) := by
        unfold Repository.ListItems
        rw [hlq]
      rw [hL]
      rfl
    | ok rows =>
      have hL0 : Repository.ListItems env tf gf =
          (match scanAll rows with
           | .error e => .error e
           | .ok items =>
             match env.rowsErr with
             | some e2 => .error ("iterating rows: " ++ e2)
             | none => .ok items) := by
        unfold Repository.ListItems
        rw [hlq]
      have hall := scanAll_isOk rows
      show isOkE (Repository.ListItems env tf gf) =
        (rows.all (fun r => isOkE r) && env.rowsErr.isNone)
      rw [← hall]
      cases hsc : scanAll rows with
      | error e1 =>
        rw [hsc] at hL0
        rw [hL0]
        rfl
      | ok items =>
        rw [hsc] at hL0
        cases hre : env.rowsErr with
        | some e2 =>
          rw [hre] at hL0
          rw [hL0]
          rfl
        | none =>
          rw [hre] at hL0
          rw [hL0]
          rfl
  · intro e he
    cases hlq : env.listQuery (buildListQuery tf gf) with
    | error e0 =>
      have hL : Repository.ListItems env tf gf =
          .error ("executing query: " ++ e0) := by
        unfold Repository.ListItems
        rw [hlq]
      rw [hL] at he
      cases he
      have h1 : startsWithStr "executing query: "
          ("executing query: " ++ e0) = true := leadsIn_refl_append _ _
      rw [h1]
      rfl
    | ok rows =>
      have hL0 : Repository.ListItems env tf gf =
          (match scanAll rows with
           | .error e => .error e
           | .ok items =>
             match env.rowsErr with
             | some e2 => .error ("iterating rows: " ++ e2)
             | none => .ok items) := by
        unfold Repository.ListItems
        rw [hlq]
      cases hsc : scanAll rows with
      | error e1 =>
        rw [hsc] at hL0
        have hL : Repository.ListItems env tf gf = .error e1 := hL0
        rw [hL] at he
        cases he
        simp [scanAll_error_msg rows e hsc]
      | ok items =>
        rw [hsc] at hL0
        cases hre : env.rowsErr with
        | some e2 =>
          rw [hre] at hL0
          have hL : Repository.ListItems env tf gf =
              .error ("iterating rows: " ++ e2) := hL0
          rw [hL] at he
          cases he
          have h3 : startsWithStr "iterating rows: "
              ("iterating rows: " ++ e2) = true := leadsIn_refl_append _ _
          simp [h3]
        | none =>
          rw [hre] at hL0
          have hL : Repository.ListItems env tf gf = .ok items := hL0
          rw [hL] at he
          cases he
  · intro e cmds he
    cases hg : env.getScan getByStableIDQuery sid with
    | error e0 =>
      have hO : CLI.Open env cfg sid =
          (.error ("getting item: " ++ ("fetching item: " ++ e0)), []) := by
        unfold CLI.Open Repository.GetByStableID
        rw [hg]
      rw [hO] at he
      cases he
      have h1 : startsWithStr "getting item: "
          ("getting item: " ++ ("fetching item: " ++ e0)) = true :=
        leadsIn_refl_append _ _
      rw [h1]
      rfl
    | ok item =>
      have hO : CLI.Open env cfg sid =
          (if getStoragePath cfg item = ""
           then (.error ("no attachment found for item: " ++ sid), [])
           else match env.runCmd (getStoragePath cfg item) with
             | some e =>
               (.error ("opening file: " ++ e), [getStoragePath cfg item])
             | none => (.ok (), [getStoragePath cfg item])) := by
        unfold CLI.Open Repository.GetByStableID
        rw [hg]
      by_cases hp : getStoragePath cfg item = ""
      · rw [if_pos hp] at hO
        rw [hO] at he
        cases he
        have h2 : startsWithStr "no attachment found for item: "
            ("no attachment found for item: " ++ sid) = true :=
          leadsIn_refl_append _ _
        simp [h2]
      · rw [if_neg hp] at hO
        cases hr : env.runCmd (getStoragePath cfg item) with
        | some e0 =>
          rw [hr] at hO
          have hO2 : CLI.Open env cfg sid =
              (.error ("opening file: " ++ e0),
                [getStoragePath cfg item]) := hO
          rw [hO2] at he
          cases he
          have h3 : startsWithStr "opening file: "
              ("opening file: " ++ e0) = true := leadsIn_refl_append _ _
          simp [h3]
        | none =>
          rw [hr] at hO
          have hO2 : CLI.Open env cfg sid =
              (.ok (), [getStoragePath cfg item]) := hO
          rw [hO2] at he
          cases he
  · intro h0
    refine ⟨?_, ?_, ?_⟩
    · intro e he
      rw [goMain_nil_eq cfg env tf gf v h0, he]
    · intro e cmds he
      rw [goMain_open_eq cfg env tf gf v sid h0, he]
    · intro e he
      rw [goMain_reference_eq cfg env tf gf v sid h0, he]
  · intro e he
    unfold goMain
    rw [he]

theorem errors_wrapped_fatal_witness :
    Repository.ListItems envQueryFail "" "" =
      .error ("executing query: " ++ "disk I/O error") ∧
    goMain mainCfg envQueryFail "" "" false [] =
      .fatal ("Error listing items: " ++
        ("listing items: " ++ ("executing query: " ++ "disk I/O error"))) :=
  ⟨(errors_wrapped_fatal envQueryFail mainCfg "" "" "X" false).2.2.1
      "disk I/O error" rfl,
    ((errors_wrapped_fatal envQueryFail mainCfg "" "" "X" false).2.2.2.2.2.2.1
      rfl).1 ("listing items: " ++ ("executing query: " ++ "disk I/O error"))
      rfl⟩

/-- C5: with no positional arguments `main` runs the listing with the
parsed title/tag filters and verbosity flag; `open <id>` and
`reference <id>` run their operation on the single given identifier; a
wrong argument count for either subcommand, an unknown subcommand, or any
error from the dispatched operation terminates fatally. -/
theorem main_dispatch (cfg : Config) (env : DriverEnv) (tf gf : String)
    (v : Bool) (h0 : env.openErr = none) :
    (∀ lines, CLI.List env cfg tf gf v = .ok lines →
      goMain cfg env tf gf v [] = .finished lines []) ∧
    (∀ e, CLI.List env cfg tf gf v = .error e →
      goMain cfg env tf gf v [] =
        .fatal ("Error listing items: " ++ e)) ∧
    (∀ sid cmds, CLI.Open env cfg sid = (.ok (), cmds) →
      goMain cfg env tf gf v ["open", sid] = .finished [] cmds) ∧
    (∀ sid e cmds, CLI.Open env cfg sid = (.error e, cmds) →
      goMain cfg env tf gf v ["open", sid] =
        .fatal ("Error opening item: " ++ e)) ∧
    (∀ sid line, CLI.Reference env cfg sid = .ok line →
      goMain cfg env tf gf v ["reference", sid] = .finished [line] []) ∧
    (∀ sid e, CLI.Reference env cfg sid = .error e →
      goMain cfg env tf gf v ["reference", sid] =
        .fatal ("Error generating reference: " ++ e)) ∧
    (∀ rest, rest.length ≠ 1 →
      goMain cfg env tf gf v ("open" :: rest) =
        .fatal "Usage: store-zotero open <stableid>") ∧
    (∀ rest, rest.length ≠ 1 →
      goMain cfg env tf gf v ("reference" :: rest) =
        .fatal "Usage: store-zotero reference <stableid>") ∧
    (∀ command rest, command ≠ "open" → command ≠ "reference" →
      goMain cfg env tf gf v (command :: rest) =
        .fatal ("Unknown command: " ++ command)) := by
  refine ⟨?_, ?_, ?_, ?_, ?_, ?_, ?_, ?_, ?_⟩
  · intro lines hl
    rw [goMain_nil_eq cfg env tf gf v h0, hl]
  · intro e he
    rw [goMain_nil_eq cfg env tf gf v h0, he]
  · intro sid cmds hc
    rw [goMain_open_eq cfg env tf gf v sid h0, hc]
  · intro sid e cmds hc
    rw [goMain_open_eq cfg env tf gf v sid h0, hc]
  · intro sid line hr
    rw [goMain_reference_eq cfg env tf gf v sid h0, hr]
  · intro sid e hr
    rw [goMain_reference_eq cfg env tf gf v sid h0, hr]
  · intro rest hlen
    exact goMain_open_usage cfg env tf gf v rest h0 hlen
  · intro rest hlen
    exact goMain_reference_usage cfg env tf gf v rest h0 hlen
  · intro command rest h1 h2
    exact goMain_unknown cfg env tf gf v command rest h0 h1 h2

theorem main_dispatch_witness :
    goMain mainCfg envOK "" "" false [] =
      .finished [OutLine.idOnly "ABCD2345", OutLine.idOnly "KEY2"] [] ∧
    goMain mainCfg envOK "" "" false ["bogus"] =
      .fatal ("Unknown command: " ++ "bogus") :=
  ⟨(main_dispatch mainCfg envOK "" "" false rfl).1
      [OutLine.idOnly "ABCD2345", OutLine.idOnly "KEY2"] rfl,
    (main_dispatch mainCfg envOK "" "" false rfl).2.2.2.2.2.2.2.2 "bogus" []
      (by decide) (by decide)⟩
